import Mathlib

/-!
Shallow embedding of the transfer-learning notebook `TL-TUT.ipynb`
(cats-vs-dogs binary classification on top of a frozen VGG16 feature
extractor).  The embedding follows the executed notebook cells:

* the VGG16 convolutional base (`include_top=False`) as a layer list,
  with the Keras parameter-counting and output-shape rules for `Conv2D`
  (3x3, same padding) and `MaxPooling2D` (2x2, stride 2);
* model assembly: frozen extractor, `GlobalAveragePooling2D`, then
  `Dense(1, activation=sigmoid)`;
* the Keras `ImageDataGenerator(rescale=1/255).flow_from_directory`
  data supply: alphanumerically sorted class subdirectories, binary
  labels, nearest-neighbour resize to 200x200x3 and pixel rescaling;
* the `model.fit` loop with `steps_per_epoch = n // batch_size`,
  `validation_steps`, and a `ModelCheckpoint(save_weights_only=True)`
  callback writing to one fixed path at the end of every epoch;
* parameter updates: the optimizer updates only variables whose layer
  is trainable, once per training step; `save_weights` serializes every
  variable of the model, frozen ones included.

Parameters are modelled as exact rationals, images as 8-bit pixel grids.
-/

namespace TLTut

/-! ### VGG16 base and model assembly -/

/-- Layer of the VGG16 convolutional base: a 3x3 same-padding
convolution to `cout` channels, or a 2x2 stride-2 max pooling. -/
inductive VLayer where
  | conv (cout : Nat)
  | maxPool
deriving DecidableEq

/-- Spatial shape of a feature map: height, width, channels. -/
structure FeatShape where
  h : Nat
  w : Nat
  c : Nat
deriving DecidableEq

/-- Keras shape/parameter bookkeeping for one layer: a 3x3 conv with
`cout` filters over `c` input channels has `(3*3*c + 1) * cout`
parameters (weights plus biases) and keeps the spatial size (same
padding); a 2x2 stride-2 max pool halves the spatial size (floor) and
has no parameters. -/
def stepLayer : FeatShape × Nat → VLayer → FeatShape × Nat
  | (s, p), VLayer.conv k => (⟨s.h, s.w, k⟩, p + (3 * 3 * s.c + 1) * k)
  | (s, p), VLayer.maxPool => (⟨s.h / 2, s.w / 2, s.c⟩, p)

/-- The 13 convolutions and 5 poolings of the VGG16 base,
`include_top=False` (no flatten / fully-connected layers). -/
def vgg16Layers : List VLayer :=
  [VLayer.conv 64, VLayer.conv 64, VLayer.maxPool,
   VLayer.conv 128, VLayer.conv 128, VLayer.maxPool,
   VLayer.conv 256, VLayer.conv 256, VLayer.conv 256, VLayer.maxPool,
   VLayer.conv 512, VLayer.conv 512, VLayer.conv 512, VLayer.maxPool,
   VLayer.conv 512, VLayer.conv 512, VLayer.conv 512, VLayer.maxPool]

/-- A feature extractor as the assembly step sees it: output feature-map
shape, total parameter count, and the Keras `trainable` flag. -/
structure Extractor where
  outShape : FeatShape
  params : Nat
  trainable : Bool
deriving DecidableEq

/-- Building `tf.keras.applications.VGG16(input_shape=(s,s,3),
include_top=False)`: fold the layer list over the input shape.  A fresh
Keras model has `trainable = true`. -/
def VGG16 (imgSize : Nat) : Extractor :=
  let r := vgg16Layers.foldl stepLayer (⟨imgSize, imgSize, 3⟩, 0)
  ⟨r.1, r.2, true⟩

/-- Notebook constant: `image_size = 200`. -/
def image_size : Nat := 200

/-- Notebook object `feature_extractor` before freezing. -/
def feature_extractor : Extractor := VGG16 image_size

/-- Notebook statement `feature_extractor.trainable = False`. -/
def freeze (e : Extractor) : Extractor := { e with trainable := false }

/-- Trainable parameters contributed by the extractor itself. -/
def Extractor.trainableParams (e : Extractor) : Nat :=
  if e.trainable then e.params else 0

/-- Non-trainable parameters of the extractor itself. -/
def Extractor.nonTrainableParams (e : Extractor) : Nat :=
  if e.trainable then 0 else e.params

/-- The assembled sequential model: the extractor followed by
`GlobalAveragePooling2D()` (no parameters) and `Dense(units)` with a
sigmoid activation. -/
structure SeqModel where
  extractor : Extractor
  denseUnits : Nat
deriving DecidableEq

/-- Notebook cell `model = tf.keras.Sequential([feature_extractor,
GlobalAveragePooling2D(), Dense(1, activation=sigmoid)])`. -/
def assembleModel (e : Extractor) : SeqModel := ⟨e, 1⟩

/-- Dense-layer parameter count: global average pooling collapses the
extractor output to a vector of length `outShape.c`, so the dense layer
has `units * outShape.c` weights plus `units` biases. -/
def SeqModel.denseParams (m : SeqModel) : Nat :=
  m.denseUnits * m.extractor.outShape.c + m.denseUnits

/-- Trainable parameters of the assembled model: the extractor's (when
trainable) plus the dense head's; the pooling layer has none. -/
def SeqModel.trainableParams (m : SeqModel) : Nat :=
  m.extractor.trainableParams + m.denseParams

/-- Non-trainable parameters of the assembled model: only the frozen
extractor contributes. -/
def SeqModel.nonTrainableParams (m : SeqModel) : Nat :=
  m.extractor.nonTrainableParams

/-- Per-image output length of the assembled model (the dense layer
maps to `denseUnits` scalars; output shape `(None, denseUnits)`). -/
def SeqModel.outputUnits (m : SeqModel) : Nat := m.denseUnits

/-- The notebook's assembled `model` (extractor already frozen). -/
def model : SeqModel := assembleModel (freeze feature_extractor)

/-- Model assembly for a given input resolution, end to end. -/
def buildModel (imgSize : Nat) : SeqModel := assembleModel (freeze (VGG16 imgSize))

/-! ### Data supply: `flow_from_directory` -/

/-- A class subdirectory of the dataset root: its name and the image
files it contains. -/
structure ClassDir where
  name : String
  files : List String
deriving DecidableEq

/-- Lexicographic comparison of character lists, the order Python's
`sorted` uses on directory-name strings. -/
def charLe : List Char → List Char → Bool
  | [], _ => true
  | _ :: _, [] => false
  | a :: as, b :: bs => if a < b then true else if b < a then false else charLe as bs

/-- Ordering on name strings: lexicographic on their characters. -/
def strLe (a b : String) : Prop := charLe a.data b.data = true

instance : DecidableRel strLe := fun a b =>
  inferInstanceAs (Decidable (charLe a.data b.data = true))

/-- Ordering of class subdirectories used by Keras: alphanumeric on the
directory name (`sorted(os.listdir(directory))`). -/
def nameLe (a b : ClassDir) : Prop := strLe a.name b.name

instance : DecidableRel nameLe := fun a b =>
  inferInstanceAs (Decidable (strLe a.name b.name))

/-- Class subdirectories in the order Keras assigns label indices:
sorted alphanumerically by name, independent of enumeration order. -/
def sortClasses (ds : List ClassDir) : List ClassDir :=
  List.insertionSort nameLe ds

/-- The sorted class names; position in this list is the class label. -/
def sortedClassNames (ds : List ClassDir) : List String :=
  (sortClasses ds).map (fun d => d.name)

/-- The sample list the generator iterates over: for the class at
position `i` of the sorted class list, every file of that class becomes
a sample `(class name, file name, label i)`; with `class_mode =
binary` and two classes the label is the class index 0 or 1. -/
def samples (ds : List ClassDir) : List (String × String × Nat) :=
  (sortClasses ds).enum.flatMap
    (fun p => p.2.files.map (fun f => (p.2.name, f, p.1)))

/-- Total number of images found under the root. -/
def numImages (ds : List ClassDir) : Nat :=
  (ds.map (fun d => d.files.length)).sum

/-- The directory iterator returned by `flow_from_directory`. -/
structure DirGenerator where
  n : Nat
  numClasses : Nat
  classList : List String
  sampleList : List (String × String × Nat)
  batchSize : Nat
deriving DecidableEq

/-- Keras `flow_from_directory` on an existing root: it counts the
images of every class subdirectory (printing "Found n images belonging
to k classes") and returns an iterator.  It raises no error for a class
subdirectory with zero images; the result is always `Except.ok`. -/
def flow_from_directory (ds : List ClassDir) (batchSize : Nat) :
    Except String DirGenerator :=
  Except.ok
    { n := numImages ds
      numClasses := ds.length
      classList := sortedClassNames ds
      sampleList := samples ds
      batchSize := batchSize }

/-- Whether generator construction succeeded. -/
def constructionSucceeds (r : Except String DirGenerator) : Bool :=
  match r with
  | Except.ok _ => true
  | Except.error _ => false

/-- Number of samples of a constructed generator (0 if construction
failed). -/
def generatorN (r : Except String DirGenerator) : Nat :=
  match r with
  | Except.ok g => g.n
  | Except.error _ => 0

/-! ### Data supply: decoded batches -/

/-- A decoded image: height, width, and an 8-bit pixel value for each
position and each of the 3 colour channels (RGB decode). -/
structure RawImage where
  h : Nat
  w : Nat
  pix : Nat → Nat → Fin 3 → Fin 256

/-- Nearest-neighbour resize to a square `res x res` image (the Keras
`interpolation=nearest` default): each target position reads the
source pixel at the proportionally scaled coordinates. -/
def resizeNearest (res : Nat) (img : RawImage) : RawImage :=
  ⟨res, res, fun i j ch => img.pix (i * img.h / res) (j * img.w / res) ch⟩

/-- A batch tensor: batch size, spatial dimensions, channel count, and
the rescaled pixel values indexed by image, row, column, channel. -/
structure BatchTensor where
  n : Nat
  height : Nat
  width : Nat
  channels : Nat
  val : Nat → Nat → Nat → Fin 3 → ℚ

/-- Shape of a batch tensor, in Keras order. -/
def BatchTensor.shape (b : BatchTensor) : Nat × Nat × Nat × Nat :=
  (b.n, b.height, b.width, b.channels)

/-- Notebook constant: `ImageDataGenerator(rescale=1./255)`. -/
def rescaleFactor : ℚ := 1 / 255

/-- Loading one batch: decode each image, resize it to `res x res x 3`
and multiply every pixel by the rescale factor.  Out-of-range indices
read as 0. -/
def loadBatch (res : Nat) (imgs : List RawImage) : BatchTensor :=
  { n := imgs.length
    height := res
    width := res
    channels := 3
    val := fun i r c ch =>
      match imgs[i]? with
      | some img => rescaleFactor * (((resizeNearest res img).pix r c ch : Fin 256) : ℚ)
      | none => 0 }

/-! ### Training loop and checkpoint callback -/

/-- File names standing in for the images on disk. -/
def mkFiles (n : Nat) : List String :=
  (List.range n).map (fun i => toString i ++ ".jpg")

/-- The training root: 1000 cat and 1000 dog images. -/
def trainRoot : List ClassDir :=
  [⟨"cats", mkFiles 1000⟩, ⟨"dogs", mkFiles 1000⟩]

/-- The validation root: 500 cat and 500 dog images. -/
def validationRoot : List ClassDir :=
  [⟨"cats", mkFiles 500⟩, ⟨"dogs", mkFiles 500⟩]

/-- Notebook constant: `batch_size = 32`. -/
def batch_size : Nat := 32

/-- Notebook constant: `epochs = 2`. -/
def epochs : Nat := 2

/-- Sample count of the training generator (`train_generator.n`). -/
def train_generator_n : Nat :=
  generatorN (flow_from_directory trainRoot batch_size)

/-- Sample count of the validation generator. -/
def validation_generator_n : Nat :=
  generatorN (flow_from_directory validationRoot batch_size)

/-- Notebook: `steps_per_epoch = train_generator.n // batch_size`. -/
def steps_per_epoch : Nat := train_generator_n / batch_size

/-- Notebook: `validation_steps = validation_generator.n // batch_size`. -/
def validation_steps : Nat := validation_generator_n / batch_size

/-- Notebook: `checkpoint_dir = './training_checkpoints'`. -/
def checkpoint_dir : String := "./training_checkpoints"

/-- Notebook: `os.path.join(checkpoint_dir, "ckpt_training_vgg16")`. -/
def checkpoint_filepath : String := checkpoint_dir ++ "/ckpt_training_vgg16"

/-- Path the `ModelCheckpoint` callback writes at the end of epoch `i`:
the `filepath` argument contains no format placeholders, so it is the
same fixed path for every epoch. -/
def ckptPathForEpoch (_i : Nat) : String := checkpoint_filepath

/-- Observable events of the `model.fit` loop. -/
inductive FitEvent where
  | trainStep (epoch : Nat) (step : Nat)
  | valStep (epoch : Nat) (step : Nat)
  | ckptWrite (epoch : Nat) (path : String)
deriving DecidableEq

/-- Whether an event is a training step. -/
def FitEvent.isTrain : FitEvent → Bool
  | FitEvent.trainStep _ _ => true
  | _ => false

/-- Whether an event is a validation step. -/
def FitEvent.isVal : FitEvent → Bool
  | FitEvent.valStep _ _ => true
  | _ => false

/-- The checkpoint paths written by an event sequence, in order. -/
def ckptPaths (evs : List FitEvent) : List String :=
  evs.flatMap (fun e =>
    match e with
    | FitEvent.ckptWrite _ p => [p]
    | _ => [])

/-- One epoch of `model.fit`: `steps_per_epoch` training steps, then
`validation_steps` validation steps, then one checkpoint write (the
callback's default `save_freq` is per epoch). -/
def epochEvents (e : Nat) : List FitEvent :=
  (List.range steps_per_epoch).map (FitEvent.trainStep e) ++
  (List.range validation_steps).map (FitEvent.valStep e) ++
  [FitEvent.ckptWrite e (ckptPathForEpoch e)]

/-- The whole `model.fit(...)` call: `epochs` epochs in order. -/
def fitEvents : List FitEvent :=
  (List.range epochs).flatMap epochEvents

/-! ### Parameter state, optimizer step, checkpoint contents -/

/-- The model's variables: the extractor's weights together with its
`trainable` flag, and the head's kernel and bias. -/
structure ModelParams where
  extractorTrainable : Bool
  extractorW : List ℚ
  headW : List ℚ
  headB : ℚ
deriving DecidableEq

/-- The per-variable deltas of one optimizer step (for RMSprop these
are the scaled accumulated gradients; their exact values are opaque
here). -/
structure GradStep where
  gE : List ℚ
  gW : List ℚ
  gB : ℚ
deriving DecidableEq

/-- Notebook constant: `RMSprop(learning_rate=0.01)`. -/
def learning_rate : ℚ := 1 / 100

/-- Elementwise gradient application to a weight list. -/
def applyGrad (lr : ℚ) (w : List ℚ) (g : List ℚ) : List ℚ :=
  List.zipWith (fun x d => x - lr * d) w g

/-- One optimizer step: Keras updates only the variables of trainable
layers, so the extractor's weights move only when its `trainable` flag
is set; the head's kernel and bias are always updated (once). -/
def optimizerStep (lr : ℚ) (g : GradStep) (p : ModelParams) : ModelParams :=
  { p with
    extractorW :=
      if p.extractorTrainable then applyGrad lr p.extractorW g.gE
      else p.extractorW
    headW := applyGrad lr p.headW g.gW
    headB := p.headB - lr * g.gB }

/-- Running the training loop over a list of gradient steps. -/
def runTraining (lr : ℚ) (gs : List GradStep) (p : ModelParams) : ModelParams :=
  gs.foldl (fun q g => optimizerStep lr g q) p

/-- Parameter state after the first `k` training steps. -/
def trainStates (lr : ℚ) (gs : List GradStep) (p : ModelParams) (k : Nat) :
    ModelParams :=
  runTraining lr (gs.take k) p

/-- Checkpoint contents under `save_weights_only=True`: Keras
`model.save_weights` serializes every variable of the model in layer
order — the (frozen) extractor's weights first, then the head's kernel
and bias. -/
def saveWeights (p : ModelParams) : List ℚ :=
  p.extractorW ++ p.headW ++ [p.headB]

/-- Loading a weight checkpoint into a freshly assembled model of the
same architecture (`eLen` extractor weights, `wLen` head weights): the
values are assigned back positionally; fails if the lengths do not
match the checkpoint. -/
def loadWeights (tr : Bool) (eLen wLen : Nat) (ckpt : List ℚ) :
    Option ModelParams :=
  let e := ckpt.take eLen
  let rest := ckpt.drop eLen
  let w := rest.take wLen
  match rest.drop wLen with
  | [b] => some ⟨tr, e, w, b⟩
  | _ => none

/-- Dot product of two weight vectors. -/
def dot (xs ys : List ℚ) : ℚ :=
  (List.zipWith (fun a b => a * b) xs ys).sum

/-- The model's pre-sigmoid output on one input: an opaque extractor
function `extract` is applied with the extractor weights, global
average pooling and the dense head give `headW . features + headB`.
The sigmoid applied on top is a function of this logit, so equal
logits give equal predictions. -/
def predictLogit (extract : List ℚ → List ℚ → List ℚ)
    (p : ModelParams) (x : List ℚ) : ℚ :=
  dot p.headW (extract p.extractorW x) + p.headB

/-- Two-class demonstration root, listed in non-alphabetic order. -/
def twoClassDemo : List ClassDir := [⟨"dogs", ["d1.jpg"]⟩, ⟨"cats", ["c1.jpg"]⟩]

/-- Root whose `cats` class subdirectory contains zero images. -/
def emptyCatsRoot : List ClassDir := [⟨"cats", []⟩, ⟨"dogs", ["dog001.jpg"]⟩]

/-- Enumeration order `dogs` before `cats`. -/
def rootOrderA : List ClassDir := [⟨"dogs", []⟩, ⟨"cats", []⟩]

/-- Enumeration order `cats` before `dogs`. -/
def rootOrderB : List ClassDir := [⟨"cats", []⟩, ⟨"dogs", []⟩]

/-- Demonstration parameter state with a frozen extractor. -/
def demoParams : ModelParams := ⟨false, [5], [1], 2⟩

/-- Demonstration gradient step. -/
def demoGrad : GradStep := ⟨[3], [7], 1⟩

/-- Parameter state used to inspect checkpoint contents: the extractor
weight value 2 occurs neither in the head kernel nor in the bias. -/
def ckptDemoParams : ModelParams := ⟨false, [2], [3], 4⟩

/-! ### Order facts for the class-name comparison -/

theorem charLe_total : ∀ as bs, charLe as bs = true ∨ charLe bs as = true := by
  intro as
  induction as with
  | nil => intro bs; left; rfl
  | cons a as ih =>
    intro bs
    cases bs with
    | nil => right; rfl
    | cons b bs =>
      by_cases hab : a < b
      · left; simp [charLe, hab]
      · by_cases hba : b < a
        · right; simp [charLe, hba]
        · rcases ih bs with h | h
          · left; simp [charLe, hab, hba, h]
          · right; simp [charLe, hab, hba, h]

theorem charLe_trans :
    ∀ as bs cs, charLe as bs = true → charLe bs cs = true → charLe as cs = true := by
  intro as
  induction as with
  | nil => intro bs cs _ _; rfl
  | cons a as ih =>
    intro bs cs h₁ h₂
    cases bs with
    | nil => simp [charLe] at h₁
    | cons b bs =>
      cases cs with
      | nil => simp [charLe] at h₂
      | cons c cs =>
        by_cases hab : a < b
        · by_cases hbc : b < c
          · simp [charLe, lt_trans hab hbc]
          · by_cases hcb : c < b
            · simp [charLe, hbc, hcb] at h₂
            · have hbc' : b = c := le_antisymm (not_lt.mp hcb) (not_lt.mp hbc)
              subst hbc'
              simp [charLe, hab]
        · by_cases hba : b < a
          · simp [charLe, hab, hba] at h₁
          · have hab' : a = b := le_antisymm (not_lt.mp hba) (not_lt.mp hab)
            subst hab'
            simp only [charLe, if_neg hab, if_neg hba] at h₁
            by_cases hbc : a < c
            · simp [charLe, hbc]
            · by_cases hcb : c < a
              · simp [charLe, hbc, hcb] at h₂
              · have hbc' : a = c := le_antisymm (not_lt.mp hcb) (not_lt.mp hbc)
                subst hbc'
                simp only [charLe, if_neg hbc, if_neg hcb] at h₂ ⊢
                exact ih bs cs h₁ h₂

theorem charLe_antisymm :
    ∀ as bs, charLe as bs = true → charLe bs as = true → as = bs := by
  intro as
  induction as with
  | nil =>
    intro bs _ h₂
    cases bs with
    | nil => rfl
    | cons b bs => simp [charLe] at h₂
  | cons a as ih =>
    intro bs h₁ h₂
    cases bs with
    | nil => simp [charLe] at h₁
    | cons b bs =>
      by_cases hab : a < b
      · simp [charLe, hab, lt_asymm hab] at h₂
      · by_cases hba : b < a
        · simp [charLe, hab, hba] at h₁
        · have hab' : a = b := le_antisymm (not_lt.mp hba) (not_lt.mp hab)
          subst hab'
          simp only [charLe, if_neg hab, if_neg hba] at h₁ h₂
          rw [ih bs h₁ h₂]

instance : IsTotal String strLe := ⟨fun a b => charLe_total a.data b.data⟩

instance : IsTrans String strLe :=
  ⟨fun _ _ _ h₁ h₂ => charLe_trans _ _ _ h₁ h₂⟩

instance : IsAntisymm String strLe :=
  ⟨fun a b h₁ h₂ => by
    cases a; cases b
    exact congrArg String.mk (charLe_antisymm _ _ h₁ h₂)⟩

instance : IsTotal ClassDir nameLe := ⟨fun a b => IsTotal.total a.name b.name⟩

instance : IsTrans ClassDir nameLe :=
  ⟨fun _ _ _ h₁ h₂ => IsTrans.trans (r := strLe) _ _ _ h₁ h₂⟩

/-! ### Claim C1: trainable-parameter count of the assembled model -/

/-- C1.  For any frozen feature extractor whose output feature map has
`C` channels, the assembled model (extractor, global average pooling,
one dense sigmoid unit) has exactly `C + 1` trainable parameters, and
its non-trainable parameter count is the extractor's own; for the
notebook's VGG16 extractor `C = 512`, so the model has 513 trainable
and 14714688 non-trainable parameters. -/
theorem assembled_model_param_counts (e : Extractor) (h : e.trainable = false) :
    (assembleModel e).trainableParams = e.outShape.c + 1 ∧
    (assembleModel e).nonTrainableParams = e.nonTrainableParams ∧
    (freeze feature_extractor).outShape.c = 512 ∧
    model.trainableParams = 513 ∧
    model.nonTrainableParams = feature_extractor.params ∧
    feature_extractor.params = 14714688 := by
  refine ⟨?_, rfl, by decide, by decide, by decide, by decide⟩
  simp [SeqModel.trainableParams, assembleModel, SeqModel.denseParams,
    Extractor.trainableParams, h]

/-- Witness for C1 at the notebook's frozen VGG16 extractor. -/
theorem assembled_model_param_counts_witness :
    (assembleModel (freeze feature_extractor)).trainableParams =
      (freeze feature_extractor).outShape.c + 1 ∧
    (assembleModel (freeze feature_extractor)).nonTrainableParams =
      (freeze feature_extractor).nonTrainableParams ∧
    (freeze feature_extractor).outShape.c = 512 ∧
    model.trainableParams = 513 ∧
    model.nonTrainableParams = feature_extractor.params ∧
    feature_extractor.params = 14714688 :=
  assembled_model_param_counts (freeze feature_extractor) rfl

/-! ### Claim C9: model assembly is architecturally deterministic -/

/-- C9.  Running model assembly twice on extractors that agree in
architecture (same output shape, same parameter count, same trainable
flag — in particular the same extractor at the same input resolution)
yields identical models: equal as models, hence with the same
trainable-parameter count and the same output shape. -/
theorem assembly_idempotent (e₁ e₂ : Extractor)
    (hs : e₁.outShape = e₂.outShape) (hp : e₁.params = e₂.params)
    (ht : e₁.trainable = e₂.trainable) :
    assembleModel e₁ = assembleModel e₂ ∧
    (assembleModel e₁).trainableParams = (assembleModel e₂).trainableParams ∧
    (assembleModel e₁).outputUnits = (assembleModel e₂).outputUnits := by
  obtain ⟨s₁, p₁, t₁⟩ := e₁
  obtain ⟨s₂, p₂, t₂⟩ := e₂
  cases hs; cases hp; cases ht
  exact ⟨rfl, rfl, rfl⟩

/-- Witness for C9: two builds of the notebook's model. -/
theorem assembly_idempotent_witness :
    assembleModel (freeze (VGG16 image_size)) = assembleModel (freeze (VGG16 image_size)) ∧
    (assembleModel (freeze (VGG16 image_size))).trainableParams =
      (assembleModel (freeze (VGG16 image_size))).trainableParams ∧
    (assembleModel (freeze (VGG16 image_size))).outputUnits =
      (assembleModel (freeze (VGG16 image_size))).outputUnits :=
  assembly_idempotent (freeze (VGG16 image_size)) (freeze (VGG16 image_size)) rfl rfl rfl

/-! ### Claim C2: step counts and checkpoint writes of the fit loop -/

theorem filter_isTrain_trainSteps (e : Nat) (l : List Nat) :
    (l.map (FitEvent.trainStep e)).filter FitEvent.isTrain = l.map (FitEvent.trainStep e) :=
  List.filter_eq_self.mpr (by
    intro x hx
    obtain ⟨i, _, rfl⟩ := List.mem_map.mp hx
    rfl)

theorem filter_isTrain_valSteps (e : Nat) (l : List Nat) :
    (l.map (FitEvent.valStep e)).filter FitEvent.isTrain = [] := by
  rw [List.filter_eq_nil_iff]
  intro x hx
  obtain ⟨i, _, rfl⟩ := List.mem_map.mp hx
  simp [FitEvent.isTrain]

theorem filter_isVal_trainSteps (e : Nat) (l : List Nat) :
    (l.map (FitEvent.trainStep e)).filter FitEvent.isVal = [] := by
  rw [List.filter_eq_nil_iff]
  intro x hx
  obtain ⟨i, _, rfl⟩ := List.mem_map.mp hx
  simp [FitEvent.isVal]

theorem filter_isVal_valSteps (e : Nat) (l : List Nat) :
    (l.map (FitEvent.valStep e)).filter FitEvent.isVal = l.map (FitEvent.valStep e) :=
  List.filter_eq_self.mpr (by
    intro x hx
    obtain ⟨i, _, rfl⟩ := List.mem_map.mp hx
    rfl)

theorem ckptPaths_trainSteps (e : Nat) (l : List Nat) :
    ckptPaths (l.map (FitEvent.trainStep e)) = [] := by
  induction l with
  | nil => rfl
  | cons a l ih => simp [ckptPaths, ih]

theorem ckptPaths_valSteps (e : Nat) (l : List Nat) :
    ckptPaths (l.map (FitEvent.valStep e)) = [] := by
  induction l with
  | nil => rfl
  | cons a l ih => simp [ckptPaths, ih]

theorem ckptPaths_append (l₁ l₂ : List FitEvent) :
    ckptPaths (l₁ ++ l₂) = ckptPaths l₁ ++ ckptPaths l₂ := by
  simp [ckptPaths]

theorem steps_per_epoch_eq : steps_per_epoch = 62 := by
  simp [steps_per_epoch, train_generator_n, generatorN, flow_from_directory,
    numImages, trainRoot, mkFiles, batch_size]

theorem validation_steps_eq : validation_steps = 31 := by
  simp [validation_steps, validation_generator_n, generatorN, flow_from_directory,
    numImages, validationRoot, mkFiles, batch_size]

/-- C2.  With the notebook's 2000 training and 1000 validation images,
batch size 32 and 2 epochs: every epoch of the fit loop performs
exactly `2000 / 32 = 62` training steps and `1000 / 32 = 31`
validation steps and writes exactly one checkpoint, and the whole run
(two epochs) produces exactly two checkpoint writes, both to the same
fixed path, so each write overwrites the previous file. -/
theorem fit_loop_step_counts :
    train_generator_n = 2000 ∧
    validation_generator_n = 1000 ∧
    steps_per_epoch = 62 ∧
    validation_steps = 31 ∧
    (∀ e, ((epochEvents e).filter FitEvent.isTrain).length = 62 ∧
          ((epochEvents e).filter FitEvent.isVal).length = 31 ∧
          ckptPaths (epochEvents e) = [checkpoint_filepath]) ∧
    fitEvents = epochEvents 0 ++ epochEvents 1 ∧
    ckptPaths fitEvents = [checkpoint_filepath, checkpoint_filepath] := by
  have htrain : train_generator_n = 2000 := by
    simp [train_generator_n, generatorN, flow_from_directory, numImages, trainRoot, mkFiles]
  have hval : validation_generator_n = 1000 := by
    simp [validation_generator_n, generatorN, flow_from_directory, numImages,
      validationRoot, mkFiles]
  have hper : ∀ e, ((epochEvents e).filter FitEvent.isTrain).length = 62 ∧
      ((epochEvents e).filter FitEvent.isVal).length = 31 ∧
      ckptPaths (epochEvents e) = [checkpoint_filepath] := by
    intro e
    refine ⟨?_, ?_, ?_⟩
    · rw [epochEvents, List.filter_append, List.filter_append,
        filter_isTrain_trainSteps, filter_isTrain_valSteps]
      simp [FitEvent.isTrain, steps_per_epoch_eq]
    · rw [epochEvents, List.filter_append, List.filter_append,
        filter_isVal_trainSteps, filter_isVal_valSteps]
      simp [FitEvent.isVal, validation_steps_eq]
    · rw [epochEvents, ckptPaths_append, ckptPaths_append,
        ckptPaths_trainSteps, ckptPaths_valSteps]
      rfl
  have hsplit : fitEvents = epochEvents 0 ++ epochEvents 1 := by
    simp [fitEvents, epochs, List.range_succ]
  refine ⟨htrain, hval, steps_per_epoch_eq, validation_steps_eq, hper, hsplit, ?_⟩
  rw [hsplit, ckptPaths_append, (hper 0).2.2, (hper 1).2.2]
  rfl

/-! ### Claim C3: the frozen extractor is a frame of the training loop -/

theorem optimizerStep_frozen (lr : ℚ) (g : GradStep) (p : ModelParams)
    (h : p.extractorTrainable = false) :
    (optimizerStep lr g p).extractorW = p.extractorW ∧
    (optimizerStep lr g p).extractorTrainable = false := by
  constructor
  · simp [optimizerStep, h]
  · simpa [optimizerStep] using h

theorem runTraining_frozen (lr : ℚ) (gs : List GradStep) (p : ModelParams)
    (h : p.extractorTrainable = false) :
    (runTraining lr gs p).extractorW = p.extractorW ∧
    (runTraining lr gs p).extractorTrainable = false := by
  induction gs generalizing p with
  | nil => exact ⟨rfl, h⟩
  | cons g gs ih =>
    have hstep := optimizerStep_frozen lr g p h
    have hrec := ih (optimizerStep lr g p) hstep.2
    have hfold : runTraining lr (g :: gs) p = runTraining lr gs (optimizerStep lr g p) := rfl
    rw [hfold, hrec.1, hstep.1]
    exact ⟨rfl, hrec.2⟩

/-- C3.  With the extractor frozen (`feature_extractor.trainable =
False`), every training step of the loop leaves the extractor's
parameters exactly as they were at the start of training, and the state
after step `k + 1` is obtained from the state after step `k` by exactly
one optimizer update, which touches only the head's kernel and bias. -/
theorem frozen_extractor_frame (lr : ℚ) (gs : List GradStep) (p : ModelParams)
    (hfrozen : p.extractorTrainable = false) (k : Nat) (hk : k < gs.length) :
    (trainStates lr gs p k).extractorW = p.extractorW ∧
    (trainStates lr gs p (k + 1)).extractorW = p.extractorW ∧
    trainStates lr gs p (k + 1) =
      optimizerStep lr (gs.get ⟨k, hk⟩) (trainStates lr gs p k) ∧
    (optimizerStep lr (gs.get ⟨k, hk⟩) (trainStates lr gs p k)).headW =
      applyGrad lr (trainStates lr gs p k).headW (gs.get ⟨k, hk⟩).gW ∧
    (optimizerStep lr (gs.get ⟨k, hk⟩) (trainStates lr gs p k)).headB =
      (trainStates lr gs p k).headB - lr * (gs.get ⟨k, hk⟩).gB := by
  have hstate : ∀ j, (trainStates lr gs p j).extractorW = p.extractorW :=
    fun j => (runTraining_frozen lr (gs.take j) p hfrozen).1
  have hsucc : trainStates lr gs p (k + 1) =
      optimizerStep lr (gs.get ⟨k, hk⟩) (trainStates lr gs p k) := by
    unfold trainStates runTraining
    rw [List.take_succ]
    rw [List.getElem?_eq_getElem hk]
    rw [List.foldl_append]
    rfl
  exact ⟨hstate k, hstate (k + 1), hsucc, rfl, rfl⟩

/-- Witness for C3: one training step on a concrete frozen state. -/
theorem frozen_extractor_frame_witness :
    (trainStates learning_rate [demoGrad] demoParams 0).extractorW = demoParams.extractorW ∧
    (trainStates learning_rate [demoGrad] demoParams (0 + 1)).extractorW = demoParams.extractorW ∧
    trainStates learning_rate [demoGrad] demoParams (0 + 1) =
      optimizerStep learning_rate ([demoGrad].get ⟨0, by decide⟩)
        (trainStates learning_rate [demoGrad] demoParams 0) ∧
    (optimizerStep learning_rate ([demoGrad].get ⟨0, by decide⟩)
        (trainStates learning_rate [demoGrad] demoParams 0)).headW =
      applyGrad learning_rate (trainStates learning_rate [demoGrad] demoParams 0).headW
        ([demoGrad].get ⟨0, by decide⟩).gW ∧
    (optimizerStep learning_rate ([demoGrad].get ⟨0, by decide⟩)
        (trainStates learning_rate [demoGrad] demoParams 0)).headB =
      (trainStates learning_rate [demoGrad] demoParams 0).headB -
        learning_rate * ([demoGrad].get ⟨0, by decide⟩).gB :=
  frozen_extractor_frame learning_rate [demoGrad] demoParams rfl 0 (by decide)

/-! ### Claim C4: checkpoint contents -/

/-- Counterexample to C4 as stated.  `ModelCheckpoint` with
`save_weights_only=True` calls `model.save_weights`, which serializes
every variable of the model: on a concrete state whose frozen extractor
holds the weight value 2, the checkpoint contains 2 although 2 is not
among the head's kernel and bias — so the checkpoint does not contain
only the head's trainable parameters. -/
theorem checkpoint_only_head_counterexample :
    ckptDemoParams.extractorTrainable = false ∧
    (2 : ℚ) ∈ saveWeights ckptDemoParams ∧
    ¬ (2 : ℚ) ∈ ckptDemoParams.headW ++ [ckptDemoParams.headB] := by
  refine ⟨rfl, ?_, ?_⟩ <;> decide

/-- C4 amended.  Every checkpoint written at the fixed path contains
all of the model's weights — the frozen extractor's parameters first,
then the head's kernel and bias — not only the head's trainable
parameters. -/
theorem checkpoint_contains_all_weights (p : ModelParams) :
    saveWeights p = p.extractorW ++ (p.headW ++ [p.headB]) ∧
    (∀ v ∈ p.extractorW, v ∈ saveWeights p) ∧
    (∀ v ∈ p.headW, v ∈ saveWeights p) ∧
    p.headB ∈ saveWeights p := by
  refine ⟨by simp [saveWeights], ?_, ?_, ?_⟩ <;> simp [saveWeights]
  · intro v hv; exact Or.inl hv
  · intro v hv; exact Or.inr (Or.inl hv)

/-- Witness for C4 amended at a concrete parameter state. -/
theorem checkpoint_contains_all_weights_witness :
    saveWeights ckptDemoParams =
      ckptDemoParams.extractorW ++ (ckptDemoParams.headW ++ [ckptDemoParams.headB]) ∧
    (∀ v ∈ ckptDemoParams.extractorW, v ∈ saveWeights ckptDemoParams) ∧
    (∀ v ∈ ckptDemoParams.headW, v ∈ saveWeights ckptDemoParams) ∧
    ckptDemoParams.headB ∈ saveWeights ckptDemoParams :=
  checkpoint_contains_all_weights ckptDemoParams

/-! ### Membership facts about the generator's sample list -/

theorem enum_mem_getElem {α : Type _} {l : List α} {q : Nat × α} (hq : q ∈ l.enum) :
    l[q.1]? = some q.2 := by
  obtain ⟨i, hi, hqe⟩ := List.getElem_of_mem hq
  have hl : i < l.length := by simpa [List.enum, List.enumFrom_length] using hi
  have hq' : l.enum[i] = (i, l[i]) := by
    show (l.enumFrom 0)[i] = (i, l[i])
    rw [List.getElem_enumFrom]
    simp
  rw [hq'] at hqe
  cases hqe
  exact List.getElem?_eq_getElem hl

theorem mem_samples (ds : List ClassDir) (s : String × String × Nat)
    (hs : s ∈ samples ds) :
    ∃ d, d ∈ ds ∧ d.name = s.1 ∧ s.2.1 ∈ d.files ∧
      (sortClasses ds)[s.2.2]? = some d := by
  obtain ⟨q, hq, hsm⟩ := List.mem_flatMap.mp hs
  obtain ⟨f, hf, rfl⟩ := List.mem_map.mp hsm
  refine ⟨q.2, ?_, rfl, hf, enum_mem_getElem hq⟩
  have hmem : q.2 ∈ sortClasses ds := List.getElem?_mem (enum_mem_getElem hq)
  exact ((List.perm_insertionSort nameLe ds).mem_iff).mp hmem

/-! ### Claim C5: an empty class subdirectory does not fail fast -/

/-- Counterexample to C5 as stated.  On a root whose `cats` class
subdirectory contains zero images, `flow_from_directory` does not fail:
construction succeeds (Keras merely reports the image count), so the
data supply does not fail fast on an empty class directory. -/
theorem empty_class_fail_fast_counterexample :
    (emptyCatsRoot.map ClassDir.files)[0]? = some [] ∧
    constructionSucceeds (flow_from_directory emptyCatsRoot batch_size) = true := by
  exact ⟨rfl, rfl⟩

/-- C5 amended.  Data Supply construction never fails: for every root —
in particular one with an empty class subdirectory — the generator is
built successfully; its sample count equals the number of images
actually present (an empty class contributes zero images), and every
sample it will ever yield comes from a file actually present in one of
the class directories, so no batches are drawn from the empty class. -/
theorem flow_construction_never_fails (ds : List ClassDir) (bs : Nat) (nm : String) :
    constructionSucceeds (flow_from_directory ds bs) = true ∧
    generatorN (flow_from_directory ds bs) = numImages ds ∧
    numImages (⟨nm, []⟩ :: ds) = numImages ds ∧
    (∀ s ∈ samples ds, ∃ d, d ∈ ds ∧ d.name = s.1 ∧ s.2.1 ∈ d.files) := by
  refine ⟨rfl, rfl, by simp [numImages], ?_⟩
  intro s hs
  obtain ⟨d, hd, hn, hf, _⟩ := mem_samples ds s hs
  exact ⟨d, hd, hn, hf⟩

/-- Witness for C5 amended at the root with an empty `cats` class. -/
theorem flow_construction_never_fails_witness :
    constructionSucceeds (flow_from_directory emptyCatsRoot batch_size) = true ∧
    generatorN (flow_from_directory emptyCatsRoot batch_size) = numImages emptyCatsRoot ∧
    numImages (⟨"cats", []⟩ :: emptyCatsRoot) = numImages emptyCatsRoot ∧
    (∀ s ∈ samples emptyCatsRoot,
      ∃ d, d ∈ emptyCatsRoot ∧ d.name = s.1 ∧ s.2.1 ∈ d.files) :=
  flow_construction_never_fails emptyCatsRoot batch_size "cats"

/-! ### Claim C6: batch shape and pixel range -/

/-- C6.  Every batch the data supply produces has shape
`(batch, 200, 200, 3)`, and after the `1/255` rescale every value of
the batch tensor lies in the closed interval `[0, 1]`. -/
theorem batch_shape_and_pixel_range (imgs : List RawImage) (i r c : Nat) (ch : Fin 3) :
    (loadBatch image_size imgs).shape = (imgs.length, 200, 200, 3) ∧
    0 ≤ (loadBatch image_size imgs).val i r c ch ∧
    (loadBatch image_size imgs).val i r c ch ≤ 1 := by
  refine ⟨rfl, ?_, ?_⟩
  · simp only [loadBatch, rescaleFactor]
    cases imgs[i]? with
    | none => norm_num
    | some img => positivity
  · simp only [loadBatch, rescaleFactor]
    cases imgs[i]? with
    | none => norm_num
    | some img =>
      have hlt : ((resizeNearest image_size img).pix r c ch).val < 256 :=
        ((resizeNearest image_size img).pix r c ch).isLt
      have hb : (((resizeNearest image_size img).pix r c ch : Fin 256) : ℚ) ≤ 255 := by
        have hv : (((resizeNearest image_size img).pix r c ch).val : ℚ) ≤ 255 := by
          exact_mod_cast Nat.lt_succ_iff.mp hlt
        simpa using hv
      show (1 : ℚ) / 255 * _ ≤ 1
      rw [div_mul_eq_mul_div, one_mul, div_le_one (by norm_num)]
      linarith

/-! ### Claim C7: binary labels derived from the parent directory -/

/-- C7.  Under `class_mode = binary` with two class subdirectories,
every sample the generator yields carries a label in `{0, 1}`, and the
label is exactly the position of the sample's parent-directory name in
the sorted class-name list — the directory-derived class. -/
theorem labels_binary_and_directory_derived (ds : List ClassDir) (h2 : ds.length = 2)
    (s : String × String × Nat) (hs : s ∈ samples ds) :
    (s.2.2 = 0 ∨ s.2.2 = 1) ∧ (sortedClassNames ds)[s.2.2]? = some s.1 := by
  obtain ⟨q, hq, hsm⟩ := List.mem_flatMap.mp hs
  obtain ⟨f, hf, rfl⟩ := List.mem_map.mp hsm
  have hget : (sortClasses ds)[q.1]? = some q.2 := enum_mem_getElem hq
  have hlt : q.1 < (sortClasses ds).length := (List.getElem?_eq_some.mp hget).1
  have hlen : (sortClasses ds).length = 2 := by
    rw [sortClasses, (List.perm_insertionSort nameLe ds).length_eq]
    exact h2
  constructor
  · show q.1 = 0 ∨ q.1 = 1
    omega
  · show ((sortClasses ds).map (fun d => d.name))[q.1]? = some q.2.name
    rw [List.getElem?_map, hget]
    rfl

/-- Witness for C7 on a concrete two-class root. -/
theorem labels_binary_and_directory_derived_witness :
    ((("cats", "c1.jpg", 0) : String × String × Nat).2.2 = 0 ∨
      (("cats", "c1.jpg", 0) : String × String × Nat).2.2 = 1) ∧
    (sortedClassNames twoClassDemo)[(("cats", "c1.jpg", 0) : String × String × Nat).2.2]? =
      some (("cats", "c1.jpg", 0) : String × String × Nat).1 :=
  labels_binary_and_directory_derived twoClassDemo rfl ("cats", "c1.jpg", 0) (by decide)

/-! ### Claim C10: deterministic, order-independent class labels -/

theorem sortedClassNames_eq_of_perm (ds : List ClassDir) (l : List String)
    (hp : (ds.map (fun d => d.name)).Perm l) (hs : List.Sorted strLe l) :
    sortedClassNames ds = l := by
  apply List.eq_of_perm_of_sorted (r := strLe)
  · exact ((List.perm_insertionSort nameLe ds).map (fun d => d.name)).trans hp
  · have hpw : List.Pairwise nameLe (sortClasses ds) :=
      List.sorted_insertionSort nameLe ds
    show List.Pairwise strLe ((sortClasses ds).map (fun d => d.name))
    exact List.Pairwise.map (fun d : ClassDir => d.name) (fun a b h => h) hpw
  · exact hs

/-- C10.  The class-to-label mapping is deterministic and independent
of filesystem enumeration order: for any two enumerations of the
`cats` and `dogs` subdirectories, the sorted class-name list is
`["cats", "dogs"]` in both cases, so `cats` is always label 0 and
`dogs` always label 1, identically for the training and validation
generators on every run. -/
theorem class_label_mapping_deterministic (ds₁ ds₂ : List ClassDir)
    (h₁ : (ds₁.map (fun d => d.name)).Perm ["cats", "dogs"])
    (h₂ : (ds₂.map (fun d => d.name)).Perm ["cats", "dogs"]) :
    sortedClassNames ds₁ = ["cats", "dogs"] ∧
    sortedClassNames ds₂ = ["cats", "dogs"] ∧
    sortedClassNames ds₁ = sortedClassNames ds₂ ∧
    (sortedClassNames ds₁)[0]? = some "cats" ∧
    (sortedClassNames ds₁)[1]? = some "dogs" := by
  have hs : List.Sorted strLe ["cats", "dogs"] := by decide
  have e₁ := sortedClassNames_eq_of_perm ds₁ ["cats", "dogs"] h₁ hs
  have e₂ := sortedClassNames_eq_of_perm ds₂ ["cats", "dogs"] h₂ hs
  refine ⟨e₁, e₂, e₁.trans e₂.symm, ?_, ?_⟩ <;> rw [e₁] <;> rfl

/-- Witness for C10: the two enumeration orders of the same root. -/
theorem class_label_mapping_deterministic_witness :
    sortedClassNames rootOrderA = ["cats", "dogs"] ∧
    sortedClassNames rootOrderB = ["cats", "dogs"] ∧
    sortedClassNames rootOrderA = sortedClassNames rootOrderB ∧
    (sortedClassNames rootOrderA)[0]? = some "cats" ∧
    (sortedClassNames rootOrderA)[1]? = some "dogs" :=
  class_label_mapping_deterministic rootOrderA rootOrderB
    (List.Perm.swap "cats" "dogs" []) (List.Perm.refl _)

/-! ### Claim C8: checkpoint round trip preserves predictions -/

/-- C8.  Saving the model's weights to the checkpoint and loading them
back into a freshly assembled model of the same architecture (same
extractor length, same head size, same resolution) restores the exact
parameter state, so the restored model's prediction on every input of
any fixed sample batch — for every extractor function — is identical
to the original model's (the sigmoid output is a function of the
pre-sigmoid logit, so equal logits give equal predictions). -/
theorem checkpoint_roundtrip (p : ModelParams)
    (extract : List ℚ → List ℚ → List ℚ) (x : List ℚ) :
    loadWeights p.extractorTrainable p.extractorW.length p.headW.length (saveWeights p) =
      some p ∧
    (loadWeights p.extractorTrainable p.extractorW.length p.headW.length
        (saveWeights p)).map (fun q => predictLogit extract q x) =
      some (predictLogit extract p x) := by
  obtain ⟨tr, eW, hW, hB⟩ := p
  have hsw : saveWeights ⟨tr, eW, hW, hB⟩ = eW ++ (hW ++ [hB]) := by
    simp [saveWeights]
  have hload : loadWeights tr eW.length hW.length (saveWeights ⟨tr, eW, hW, hB⟩) =
      some ⟨tr, eW, hW, hB⟩ := by
    rw [hsw, loadWeights]
    rw [List.drop_left, List.drop_left, List.take_left, List.take_left]
  exact ⟨hload, by rw [hload]; rfl⟩

end TLTut
